import Mathlib

/-!
Shallow embedding of `srtp.go` (package `srtp`): an SRTP cryptographic
context with AES-CM session key/salt derivation, rollover-counter
tracking, counter/IV generation and packet decryption.

Bytes are modelled as `Nat` (values < 256 wherever the Go code holds a
`byte`); byte slices are `List Nat`; `uint32`/`uint16` arithmetic is
`Nat` with explicit `% 2 ^ 32` / value-range hypotheses.  Fallible Go
paths (`error` returns, slice-bound panics) are modelled with `Option`.
-/

namespace Srtp

/-- Big-endian 4-byte encoding of a 32-bit value, as
`binary.BigEndian.PutUint32` writes it: `byte(v>>24), byte(v>>16),
byte(v>>8), byte(v)`. -/
def be32 (v : Nat) : List Nat :=
  [(v >>> 24) % 256, (v >>> 16) % 256, (v >>> 8) % 256, v % 256]

/-- Big-endian 2-byte encoding of a 16-bit value. -/
def be16 (v : Nat) : List Nat :=
  [(v >>> 8) % 256, v % 256]

/-- Big-endian encoding of `x` into `w` bytes (used for the 16-byte CTR
counter value). -/
def natToBE : Nat → Nat → List Nat
  | 0, _ => []
  | w + 1, x => natToBE w (x / 256) ++ [x % 256]

/-- Big-endian decoding of a byte list to a `Nat`. -/
def beToNat (l : List Nat) : Nat :=
  l.foldl (fun acc b => acc * 256 + b % 256) 0

theorem length_natToBE (w x : Nat) : (natToBE w x).length = w := by
  induction w generalizing x with
  | zero => rfl
  | succ w ih => simp [natToBE, ih]

/-!
## AES-128 block encryption

The Go code uses `crypto/aes` (the standard AES cipher, FIPS 197).  We
embed AES-128 directly: S-box, key expansion, and the ten rounds of
SubBytes/ShiftRows/MixColumns/AddRoundKey on a 16-byte column-major
state.  `aes128SanityCheck` below checks the embedding against the
FIPS-197 Appendix C.1 test vector.
-/

/-- The AES S-box (FIPS 197, figure 7). -/
def sbox : List Nat :=
  [0x63, 0x7c, 0x77, 0x7b, 0xf2, 0x6b, 0x6f, 0xc5, 0x30, 0x01, 0x67, 0x2b, 0xfe, 0xd7, 0xab, 0x76,
   0xca, 0x82, 0xc9, 0x7d, 0xfa, 0x59, 0x47, 0xf0, 0xad, 0xd4, 0xa2, 0xaf, 0x9c, 0xa4, 0x72, 0xc0,
   0xb7, 0xfd, 0x93, 0x26, 0x36, 0x3f, 0xf7, 0xcc, 0x34, 0xa5, 0xe5, 0xf1, 0x71, 0xd8, 0x31, 0x15,
   0x04, 0xc7, 0x23, 0xc3, 0x18, 0x96, 0x05, 0x9a, 0x07, 0x12, 0x80, 0xe2, 0xeb, 0x27, 0xb2, 0x75,
   0x09, 0x83, 0x2c, 0x1a, 0x1b, 0x6e, 0x5a, 0xa0, 0x52, 0x3b, 0xd6, 0xb3, 0x29, 0xe3, 0x2f, 0x84,
   0x53, 0xd1, 0x00, 0xed, 0x20, 0xfc, 0xb1, 0x5b, 0x6a, 0xcb, 0xbe, 0x39, 0x4a, 0x4c, 0x58, 0xcf,
   0xd0, 0xef, 0xaa, 0xfb, 0x43, 0x4d, 0x33, 0x85, 0x45, 0xf9, 0x02, 0x7f, 0x50, 0x3c, 0x9f, 0xa8,
   0x51, 0xa3, 0x40, 0x8f, 0x92, 0x9d, 0x38, 0xf5, 0xbc, 0xb6, 0xda, 0x21, 0x10, 0xff, 0xf3, 0xd2,
   0xcd, 0x0c, 0x13, 0xec, 0x5f, 0x97, 0x44, 0x17, 0xc4, 0xa7, 0x7e, 0x3d, 0x64, 0x5d, 0x19, 0x73,
   0x60, 0x81, 0x4f, 0xdc, 0x22, 0x2a, 0x90, 0x88, 0x46, 0xee, 0xb8, 0x14, 0xde, 0x5e, 0x0b, 0xdb,
   0xe0, 0x32, 0x3a, 0x0a, 0x49, 0x06, 0x24, 0x5c, 0xc2, 0xd3, 0xac, 0x62, 0x91, 0x95, 0xe4, 0x79,
   0xe7, 0xc8, 0x37, 0x6d, 0x8d, 0xd5, 0x4e, 0xa9, 0x6c, 0x56, 0xf4, 0xea, 0x65, 0x7a, 0xae, 0x08,
   0xba, 0x78, 0x25, 0x2e, 0x1c, 0xa6, 0xb4, 0xc6, 0xe8, 0xdd, 0x74, 0x1f, 0x4b, 0xbd, 0x8b, 0x8a,
   0x70, 0x3e, 0xb5, 0x66, 0x48, 0x03, 0xf6, 0x0e, 0x61, 0x35, 0x57, 0xb9, 0x86, 0xc1, 0x1d, 0x9e,
   0xe1, 0xf8, 0x98, 0x11, 0x69, 0xd9, 0x8e, 0x94, 0x9b, 0x1e, 0x87, 0xe9, 0xce, 0x55, 0x28, 0xdf,
   0x8c, 0xa1, 0x89, 0x0d, 0xbf, 0xe6, 0x42, 0x68, 0x41, 0x99, 0x2d, 0x0f, 0xb0, 0x54, 0xbb, 0x16]

/-- S-box substitution of one byte. -/
def sb (x : Nat) : Nat := sbox.getD (x % 256) 0

/-- Multiplication by `x` in GF(2^8) modulo the AES polynomial. -/
def xtime (b : Nat) : Nat := if b < 128 then 2 * b else (2 * b) ^^^ 0x11b

/-- GF(2^8) multiplication by 2. -/
def gmul2 (b : Nat) : Nat := xtime b

/-- GF(2^8) multiplication by 3. -/
def gmul3 (b : Nat) : Nat := xtime b ^^^ b

/-- AES round constants. -/
def rcon : List Nat := [0x01, 0x02, 0x04, 0x08, 0x10, 0x20, 0x40, 0x80, 0x1b, 0x36]

/-- XOR of two 4-byte words. -/
def xorWord (a b : List Nat) : List Nat := List.zipWith Nat.xor a b

/-- S-box applied to each byte of a word. -/
def subWord (w : List Nat) : List Nat := w.map sb

/-- Left-rotation of a 4-byte word by one byte. -/
def rotWord (w : List Nat) : List Nat := w.drop 1 ++ w.take 1

/-- AES-128 key expansion: the 44 four-byte words `w[0..43]`. -/
def expandKey (key : List Nat) : List (List Nat) :=
  let w0 := [key.take 4, (key.drop 4).take 4, (key.drop 8).take 4, (key.drop 12).take 4]
  (List.range 40).foldl (fun ws _ =>
    let idx := ws.length
    let temp := ws.getD (idx - 1) []
    let temp :=
      if idx % 4 = 0 then
        xorWord (subWord (rotWord temp)) [rcon.getD (idx / 4 - 1) 0, 0, 0, 0]
      else temp
    ws ++ [xorWord (ws.getD (idx - 4) []) temp]) w0

/-- The 16-byte round key for round `r` (words `4r .. 4r+3`). -/
def roundKey (ws : List (List Nat)) (r : Nat) : List Nat :=
  ws.getD (4 * r) [] ++ ws.getD (4 * r + 1) [] ++ ws.getD (4 * r + 2) [] ++ ws.getD (4 * r + 3) []

/-- AddRoundKey on the 16-byte state; always yields exactly 16 bytes. -/
def addRoundKey16 (s rk : List Nat) : List Nat :=
  List.ofFn (fun i : Fin 16 => s.getD i 0 ^^^ rk.getD i 0)

/-- SubBytes: S-box applied to every state byte. -/
def subBytes (s : List Nat) : List Nat := s.map sb

/-- ShiftRows on the column-major flat state: output flat index `r + 4c`
takes input flat index `r + 4((c+r) mod 4)`. -/
def shiftRows (s : List Nat) : List Nat :=
  [s.getD 0 0, s.getD 5 0, s.getD 10 0, s.getD 15 0,
   s.getD 4 0, s.getD 9 0, s.getD 14 0, s.getD 3 0,
   s.getD 8 0, s.getD 13 0, s.getD 2 0, s.getD 7 0,
   s.getD 12 0, s.getD 1 0, s.getD 6 0, s.getD 11 0]

/-- MixColumns on one 4-byte column. -/
def mixColumn (a : List Nat) : List Nat :=
  [gmul2 (a.getD 0 0) ^^^ gmul3 (a.getD 1 0) ^^^ a.getD 2 0 ^^^ a.getD 3 0,
   a.getD 0 0 ^^^ gmul2 (a.getD 1 0) ^^^ gmul3 (a.getD 2 0) ^^^ a.getD 3 0,
   a.getD 0 0 ^^^ a.getD 1 0 ^^^ gmul2 (a.getD 2 0) ^^^ gmul3 (a.getD 3 0),
   gmul3 (a.getD 0 0) ^^^ a.getD 1 0 ^^^ a.getD 2 0 ^^^ gmul2 (a.getD 3 0)]

/-- MixColumns on the whole 16-byte state (four columns). -/
def mixColumns (s : List Nat) : List Nat :=
  mixColumn (s.take 4) ++ mixColumn ((s.drop 4).take 4) ++
    mixColumn ((s.drop 8).take 4) ++ mixColumn ((s.drop 12).take 4)

/-- AES-128 single-block encryption: what Go's
`aes.NewCipher(key)` + `block.Encrypt` computes on one 16-byte block. -/
def aes128Encrypt (key block : List Nat) : List Nat :=
  let ws := expandKey key
  let s0 := addRoundKey16 block (roundKey ws 0)
  let s9 := (List.range 9).foldl
    (fun s r => addRoundKey16 (mixColumns (shiftRows (subBytes s))) (roundKey ws (r + 1))) s0
  addRoundKey16 (shiftRows (subBytes s9)) (roundKey ws 10)

set_option maxRecDepth 4000

/-- The embedding matches FIPS-197 Appendix C.1
(key `000102...0f`, plaintext `00112233...eeff`). -/
theorem aes128SanityCheck :
    aes128Encrypt
      [0x00, 0x01, 0x02, 0x03, 0x04, 0x05, 0x06, 0x07,
       0x08, 0x09, 0x0a, 0x0b, 0x0c, 0x0d, 0x0e, 0x0f]
      [0x00, 0x11, 0x22, 0x33, 0x44, 0x55, 0x66, 0x77,
       0x88, 0x99, 0xaa, 0xbb, 0xcc, 0xdd, 0xee, 0xff] =
    [0x69, 0xc4, 0xe0, 0xd8, 0x6a, 0x7b, 0x04, 0x30,
     0xd8, 0xcd, 0xb7, 0x80, 0x70, 0xb4, 0xc5, 0x5a] := by decide

theorem length_aes128Encrypt (key block : List Nat) :
    (aes128Encrypt key block).length = 16 := by
  simp [aes128Encrypt, addRoundKey16]

/-!
## CTR keystream

Go's `cipher.NewCTR(block, iv)` + `XORKeyStream` produces the keystream
`E(key, iv), E(key, iv+1), ...` where the 16-byte counter is incremented
as a big-endian integer (with carry across all 16 bytes, i.e. modulo
`2 ^ 128`), truncated to the length of the data.
-/

/-- The first `n` bytes of the AES-CTR keystream for `key` seeded with
the 16-byte counter `iv`. -/
def ctrKeystream (key iv : List Nat) (n : Nat) : List Nat :=
  (((List.range ((n + 15) / 16)).map
    (fun i => aes128Encrypt key (natToBE 16 ((beToNat iv + i) % 2 ^ 128)))).flatten).take n

theorem length_flatten_blocks (key iv : List Nat) (m : Nat) :
    (((List.range m).map
      (fun i => aes128Encrypt key (natToBE 16 ((beToNat iv + i) % 2 ^ 128)))).flatten).length =
      16 * m := by
  induction m with
  | zero => rfl
  | succ m ih =>
    rw [List.range_succ, List.map_append, List.flatten_append, List.length_append, ih]
    simp [length_aes128Encrypt]
    omega

theorem length_ctrKeystream (key iv : List Nat) (n : Nat) :
    (ctrKeystream key iv n).length = n := by
  rw [ctrKeystream, List.length_take, length_flatten_blocks]
  omega

/-- XOR of two byte sequences, truncated to the shorter one (the uses in
this file always pair equal-length lists). -/
def xorBytes (a b : List Nat) : List Nat := List.zipWith Nat.xor a b

theorem xorBytes_xorBytes_cancel (a ks : List Nat) (h : ks.length = a.length) :
    xorBytes (xorBytes a ks) ks = a := by
  induction a generalizing ks with
  | nil => simp [xorBytes]
  | cons x xs ih =>
    cases ks with
    | nil => simp at h
    | cons k kt =>
      simp only [xorBytes, List.zipWith_cons_cons, List.cons.injEq]
      refine ⟨?_, ih kt (by simpa using h)⟩
      exact Nat.xor_cancel_right k x

/-!
## Data model

`Context` mirrors the Go `Context` struct.  The Go field
`block cipher.Block` is the AES block cipher keyed by `sessionKey`; we
keep `sessionKey` and apply `aes128Encrypt sessionKey` wherever the Go
code uses `c.block`.  `Packet` carries the `rtp.Packet` fields the code
reads (`SSRC`, `SequenceNumber`, `Payload`, `Raw`, `PayloadOffset`).
-/

structure Context where
  ssrc : Nat
  rolloverCounter : Nat
  rolloverHasProcessed : Bool
  lastSequenceNumber : Nat
  masterKey : List Nat
  masterSalt : List Nat
  sessionKey : List Nat
  sessionSalt : List Nat
  deriving DecidableEq, Repr

structure Packet where
  ssrc : Nat
  sequenceNumber : Nat
  payload : List Nat
  raw : List Nat
  payloadOffset : Nat
  deriving DecidableEq, Repr

def labelEncryption : Nat := 0x00
def labelSalt : Nat := 0x02
def keyLen : Nat := 16
def saltLen : Nat := 14
def maxROCDisorder : Nat := 100
def maxSequenceNumber : Nat := 65535

/-!
## Session key / salt derivation

`generateSessionKey` copies the master salt, XORs its last 7 bytes with
`{label, 0, 0, 0, 0, 0, 0}` (walking `i` from 6 down to 0 while `j`
walks from `len-1` down, so the label byte lands at index `len-7`),
appends two zero bytes, and encrypts the resulting 16-byte block with
AES under the master key.  `generateSessionSalt` does the same under
label 0x02 and keeps the first 14 bytes.
-/

/-- The 16-byte input block of the derivation: master salt with its last
7 bytes XORed against `{label,0,0,0,0,0,0}`, then two zero bytes
appended. -/
def kdfInput (masterSalt : List Nat) (label : Nat) : List Nat :=
  masterSalt.take (masterSalt.length - 7) ++
    List.zipWith Nat.xor (masterSalt.drop (masterSalt.length - 7))
      [label, 0, 0, 0, 0, 0, 0] ++ [0, 0]

def generateSessionKey (masterKey masterSalt : List Nat) : List Nat :=
  aes128Encrypt masterKey (kdfInput masterSalt labelEncryption)

def generateSessionSalt (masterKey masterSalt : List Nat) : List Nat :=
  (aes128Encrypt masterKey (kdfInput masterSalt labelSalt)).take saltLen

/-- `CreateContext` checks the master key/salt lengths and builds the
context, deriving session key and salt once.  The Go error values carry
diagnostic strings we do not model; `aes.NewCipher` cannot fail once the
length checks have passed (the key is 16 bytes, and the derived session
key is an AES output, hence 16 bytes). -/
def CreateContext (masterKey masterSalt : List Nat) (_profile : String) : Option Context :=
  if masterKey.length ≠ keyLen then none
  else if masterSalt.length ≠ saltLen then none
  else some
    { ssrc := 0
      rolloverCounter := 0
      rolloverHasProcessed := false
      lastSequenceNumber := 0
      masterKey := masterKey
      masterSalt := masterSalt
      sessionKey := generateSessionKey masterKey masterSalt
      sessionSalt := generateSessionSalt masterKey masterSalt }

/-!
## Counter/IV generation and rollover tracking
-/

/-- `generateCounter`: zero bytes 0-3, `PutUint32` of the SSRC at 4-7,
of the rollover counter at 8-11, and of `uint32(seq) << 16` at 12-15;
then `counter[i] ^= sessionSalt[i]` for each index of the session
salt. -/
def generateCounter (c : Context) (sequenceNumber : Nat) : List Nat :=
  let counter := [0, 0, 0, 0] ++ be32 c.ssrc ++ be32 c.rolloverCounter ++
    be32 ((sequenceNumber <<< 16) % 2 ^ 32)
  List.zipWith Nat.xor counter c.sessionSalt ++ counter.drop c.sessionSalt.length

/-- `updateRolloverCount`: the RFC 3550 A.1 rollover heuristic.  The
`uint32` increment/decrement of `rolloverCounter` wraps modulo
`2 ^ 32`. -/
def updateRolloverCount (c : Context) (sequenceNumber : Nat) : Context :=
  let c' :=
    if !c.rolloverHasProcessed then
      { c with rolloverHasProcessed := true }
    else if sequenceNumber = 0 then
      if c.lastSequenceNumber > maxROCDisorder then
        { c with rolloverCounter := (c.rolloverCounter + 1) % 2 ^ 32 }
      else c
    else if c.lastSequenceNumber < maxROCDisorder ∧
        sequenceNumber > maxSequenceNumber - maxROCDisorder then
      { c with rolloverCounter := (c.rolloverCounter + 2 ^ 32 - 1) % 2 ^ 32 }
    else if sequenceNumber < maxROCDisorder ∧
        c.lastSequenceNumber > maxSequenceNumber - maxROCDisorder then
      { c with rolloverCounter := (c.rolloverCounter + 1) % 2 ^ 32 }
    else c
  { c' with lastSequenceNumber := sequenceNumber }

/-!
## Decrypt pipeline
-/

/-- Go slice expression `l[:hi]`: defined only for `0 ≤ hi ≤ len(l)`;
out of bounds (in particular a negative `hi`) panics, modelled as
`none`. -/
def goSliceTo (l : List Nat) (hi : Int) : Option (List Nat) :=
  if 0 ≤ hi ∧ hi ≤ (l.length : Int) then some (l.take hi.toNat) else none

/-- `DecryptPacket`.  Returns `none` where the Go code panics (the
`Payload[:len-10]` trim on a payload shorter than 10 bytes); otherwise
`some (ok, c', packet')` for the returned boolean and the mutated
context and packet. -/
def DecryptPacket (c : Context) (packet : Packet) : Option (Bool × Context × Packet) :=
  if c.ssrc ≠ 0 ∧ c.ssrc ≠ packet.ssrc then
    some (false, c, packet)
  else
    let c1 := { c with ssrc := packet.ssrc }
    let c2 := updateRolloverCount c1 packet.sequenceNumber
    let keystream := ctrKeystream c2.sessionKey (generateCounter c2 packet.sequenceNumber)
      packet.payload.length
    let decrypted := xorBytes packet.payload keystream
    match goSliceTo decrypted ((decrypted.length : Int) - 10) with
    | none => none
    | some payload =>
      let raw := packet.raw.take packet.payloadOffset ++ payload
      some (true, c2, { packet with payload := payload, raw := raw })

/-- Feeding a list of packets through `DecryptPacket`, threading the
context; a panic (`none`) aborts the run. -/
def processPackets (c : Context) : List Packet → Option Context
  | [] => some c
  | p :: ps =>
    match DecryptPacket c p with
    | none => none
    | some (_, c', _) => processPackets c' ps

/-!
## Spec-side models (for the refinement claims)
-/

/-- The rollover decision table exactly as the spec words it: first call
only marks initialized; then `seq = 0 ∧ last > 100` increments,
`last < 100 ∧ seq > 65435` decrements, `seq < 100 ∧ last > 65435`
increments; otherwise unchanged; `last := seq` always.  Result:
`(rolloverCounter, initialized, lastSequenceNumber)`. -/
def rocSpecStep (roc : Nat) (initialized : Bool) (last seq : Nat) : Nat × Bool × Nat :=
  if initialized = false then (roc, true, seq)
  else if seq = 0 ∧ last > 100 then ((roc + 1) % 2 ^ 32, true, seq)
  else if last < 100 ∧ seq > 65435 then ((roc + 2 ^ 32 - 1) % 2 ^ 32, true, seq)
  else if seq < 100 ∧ last > 65435 then ((roc + 1) % 2 ^ 32, true, seq)
  else (roc, true, seq)

/-- A fixed reference context (arbitrary but concrete field values) used
to instantiate universally quantified theorems at concrete inputs. -/
def wCtxM : Context :=
  { ssrc := 5
    rolloverCounter := 0
    rolloverHasProcessed := true
    lastSequenceNumber := 3
    masterKey := List.replicate 16 0
    masterSalt := List.replicate 14 0
    sessionKey := List.replicate 16 7
    sessionSalt := List.replicate 14 3 }

/-- A concrete packet whose stream identifier differs from `wCtxM`'s. -/
def pktM : Packet :=
  { ssrc := 6
    sequenceNumber := 9
    payload := List.replicate 12 1
    raw := List.replicate 20 2
    payloadOffset := 8 }

/-!
## Claim theorems
-/

/-- C9: `CreateContext` succeeds exactly when the master key is 16 bytes
and the master salt is 14 bytes; otherwise it returns no (partial)
context. -/
theorem createContext_length_check (masterKey masterSalt : List Nat) (profile : String) :
    (∃ c, CreateContext masterKey masterSalt profile = some c) ↔
      (masterKey.length = 16 ∧ masterSalt.length = 14) := by
  unfold CreateContext
  split_ifs with h1 h2 <;> simp_all [keyLen, saltLen]

/-- C1: with a bound (non-zero) stream identifier and a differing packet
identifier, `DecryptPacket` returns `false` with context and packet
untouched; and a `false` result arises only in that stream-mismatch
situation, again with no mutation. -/
theorem decryptPacket_stream_mismatch_iff (c : Context) (p : Packet) :
    (c.ssrc ≠ 0 → c.ssrc ≠ p.ssrc → DecryptPacket c p = some (false, c, p)) ∧
    (∀ b c' p', DecryptPacket c p = some (b, c', p') → b = false →
      c.ssrc ≠ 0 ∧ c.ssrc ≠ p.ssrc ∧ c' = c ∧ p' = p) := by
  constructor
  · intro h1 h2
    rw [DecryptPacket, if_pos ⟨h1, h2⟩]
  · intro b c' p' h hb
    rw [DecryptPacket] at h
    split at h
    case isTrue hm =>
      simp only [Option.some.injEq, Prod.mk.injEq] at h
      exact ⟨hm.1, hm.2, h.2.1.symm, h.2.2.symm⟩
    case isFalse hm =>
      exfalso
      simp only at h
      split at h
      · exact Option.noConfusion h
      · simp only [Option.some.injEq, Prod.mk.injEq] at h
        exact absurd (h.1.trans hb) (by decide)

/-- Witness for C1 at a concrete mismatching context/packet pair. -/
theorem decryptPacket_stream_mismatch_iff_witness :
    wCtxM.ssrc ≠ 0 ∧ wCtxM.ssrc ≠ pktM.ssrc ∧
      DecryptPacket wCtxM pktM = some (false, wCtxM, pktM) :=
  ⟨by decide, by decide,
    (decryptPacket_stream_mismatch_iff wCtxM pktM).1 (by decide) (by decide)⟩

/-- C10: on the accepted (non-mismatch) path, `DecryptPacket` panics
(`none`) exactly when the payload is shorter than the 10 bytes the trim
removes. -/
theorem decryptPacket_trim_partiality (c : Context) (p : Packet)
    (h : ¬(c.ssrc ≠ 0 ∧ c.ssrc ≠ p.ssrc)) :
    DecryptPacket c p = none ↔ p.payload.length < 10 := by
  rw [DecryptPacket, if_neg h]
  simp only [goSliceTo, xorBytes, List.length_zipWith, length_ctrKeystream, min_self]
  by_cases hl : p.payload.length < 10
  · rw [if_neg (by omega)]
    simp [hl]
  · rw [if_pos (by omega)]
    simp
    omega

/-- Witness for C10: a non-mismatching call with an empty payload
panics. -/
theorem decryptPacket_trim_partiality_witness :
    ¬(wCtxM.ssrc ≠ 0 ∧ wCtxM.ssrc ≠ ({ pktM with ssrc := 5, payload := [] } : Packet).ssrc) ∧
      (DecryptPacket wCtxM { pktM with ssrc := 5, payload := [] } = none ↔
        ({ pktM with ssrc := 5, payload := [] } : Packet).payload.length < 10) :=
  ⟨by decide, decryptPacket_trim_partiality wCtxM { pktM with ssrc := 5, payload := [] }
    (by decide)⟩

/-- C2: `updateRolloverCount` agrees with the four-branch decision table
(disorder bound 100, sequence maximum 65535) on every prior tracker
state and every 16-bit sequence number, and always stores `seq` as the
last sequence number. -/
theorem updateRolloverCount_matches_table (c : Context) (seq : Nat) (hseq : seq < 2 ^ 16) :
    (updateRolloverCount c seq).rolloverCounter =
        (rocSpecStep c.rolloverCounter c.rolloverHasProcessed c.lastSequenceNumber seq).1 ∧
      (updateRolloverCount c seq).rolloverHasProcessed =
        (rocSpecStep c.rolloverCounter c.rolloverHasProcessed c.lastSequenceNumber seq).2.1 ∧
      (updateRolloverCount c seq).lastSequenceNumber = seq := by
  obtain ⟨ssrc, roc, init, last, mk, ms, sk, ssalt⟩ := c
  cases init
  case false => simp [updateRolloverCount, rocSpecStep]
  case true =>
    simp only [updateRolloverCount, rocSpecStep, maxROCDisorder, maxSequenceNumber]
    norm_num
    split_ifs <;> simp_all <;> omega

/-- With `seq < 2 ^ 16`, the `PutUint32` encoding of `seq << 16` is the
big-endian 16-bit encoding of `seq` followed by two zero bytes. -/
theorem be32_shift16 (seq : Nat) (h : seq < 2 ^ 16) :
    be32 ((seq <<< 16) % 2 ^ 32) = be16 seq ++ [0, 0] := by
  have h1 : (seq <<< 16) % 2 ^ 32 = seq * 2 ^ 16 := by
    rw [Nat.shiftLeft_eq]
    exact Nat.mod_eq_of_lt (by omega)
  rw [h1]
  simp only [be32, be16, Nat.shiftRight_eq_div_pow, List.cons_append, List.nil_append,
    List.cons.injEq, and_true]
  omega

/-- XOR-ing a byte prefix against a fixed list is injective. -/
theorem xorPrefixCancel (s : List Nat) : ∀ (A B : List Nat), A.length = B.length →
    List.zipWith Nat.xor A s ++ A.drop s.length = List.zipWith Nat.xor B s ++ B.drop s.length →
    A = B := by
  induction s with
  | nil =>
    intro A B _ h
    simpa using h
  | cons t s ih =>
    intro A B hl h
    cases A with
    | nil =>
      cases B with
      | nil => rfl
      | cons b B => simp at hl
    | cons a A =>
      cases B with
      | nil => simp at hl
      | cons b B =>
        simp only [List.zipWith_cons_cons, List.drop_succ_cons, List.cons_append,
          List.cons.injEq] at h
        obtain ⟨h1, h2⟩ := h
        have hab : a = b := Nat.xor_left_inj.mp h1
        subst hab
        exact congrArg (a :: ·) (ih A B (by simpa using hl) h2)

/-- The counter layout as the spec words it: bytes 0-3 zero, bytes 4-7
the stream identifier (big-endian), bytes 8-11 the rollover counter,
bytes 12-13 the sequence number (its 32-bit field shifted left by 16
bits places it there), bytes 14-15 zero; the first 14 bytes XORed with
the session salt, bytes 14-15 unaffected. -/
def specCounter (ssrc roc seq : Nat) (salt : List Nat) : List Nat :=
  let lay := [0, 0, 0, 0] ++ be32 ssrc ++ be32 roc ++ (be16 seq ++ [0, 0])
  [Nat.xor (lay.getD 0 0) (salt.getD 0 0), Nat.xor (lay.getD 1 0) (salt.getD 1 0),
   Nat.xor (lay.getD 2 0) (salt.getD 2 0), Nat.xor (lay.getD 3 0) (salt.getD 3 0),
   Nat.xor (lay.getD 4 0) (salt.getD 4 0), Nat.xor (lay.getD 5 0) (salt.getD 5 0),
   Nat.xor (lay.getD 6 0) (salt.getD 6 0), Nat.xor (lay.getD 7 0) (salt.getD 7 0),
   Nat.xor (lay.getD 8 0) (salt.getD 8 0), Nat.xor (lay.getD 9 0) (salt.getD 9 0),
   Nat.xor (lay.getD 10 0) (salt.getD 10 0), Nat.xor (lay.getD 11 0) (salt.getD 11 0),
   Nat.xor (lay.getD 12 0) (salt.getD 12 0), Nat.xor (lay.getD 13 0) (salt.getD 13 0),
   lay.getD 14 0, lay.getD 15 0]

/-- C4: for every stream identifier, rollover counter, 16-bit sequence
number and 14-byte session salt, `generateCounter` produces exactly the
big-endian layout the spec describes, XORed with the salt over its first
14 bytes only. -/
theorem generateCounter_layout (c : Context) (seq : Nat)
    (s0 s1 s2 s3 s4 s5 s6 s7 s8 s9 s10 s11 s12 s13 : Nat)
    (hsalt : c.sessionSalt = [s0, s1, s2, s3, s4, s5, s6, s7, s8, s9, s10, s11, s12, s13])
    (hseq : seq < 2 ^ 16) :
    generateCounter c seq = specCounter c.ssrc c.rolloverCounter seq c.sessionSalt := by
  simp only [generateCounter, specCounter, hsalt, be32_shift16 seq hseq]
  simp [be32, be16, List.getD]

/-- Witness for C4 at a concrete context and sequence number. -/
theorem generateCounter_layout_witness :
    wCtxM.sessionSalt = [3, 3, 3, 3, 3, 3, 3, 3, 3, 3, 3, 3, 3, 3] ∧ (9 : Nat) < 2 ^ 16 ∧
      generateCounter wCtxM 9 = specCounter wCtxM.ssrc wCtxM.rolloverCounter 9 wCtxM.sessionSalt :=
  ⟨by decide, by decide,
    generateCounter_layout wCtxM 9 3 3 3 3 3 3 3 3 3 3 3 3 3 3 (by decide) (by decide)⟩

/-- C3: for a fixed stream identifier and fixed 14-byte session salt,
the counter block determines the (rolloverCounter, sequenceNumber) pair:
the generator is injective over 32-bit rollover counters and 16-bit
sequence numbers. -/
theorem generateCounter_injective (c c' : Context) (seq seq' : Nat)
    (hssrc : c.ssrc = c'.ssrc) (hsalt : c.sessionSalt = c'.sessionSalt)
    (hlen : c'.sessionSalt.length = 14)
    (hroc : c.rolloverCounter < 2 ^ 32) (hroc' : c'.rolloverCounter < 2 ^ 32)
    (hseq : seq < 2 ^ 16) (hseq' : seq' < 2 ^ 16)
    (heq : generateCounter c seq = generateCounter c' seq') :
    c.rolloverCounter = c'.rolloverCounter ∧ seq = seq' := by
  simp only [generateCounter, hssrc, hsalt] at heq
  have hA := xorPrefixCancel c'.sessionSalt _ _ (by simp [be32]) heq
  simp only [be32, List.cons_append, List.nil_append, List.cons.injEq, and_true,
    Nat.shiftRight_eq_div_pow, Nat.shiftLeft_eq] at hA
  obtain ⟨-, -, -, -, -, -, -, -, e8, e9, e10, e11, e12, e13, -, -⟩ := hA
  constructor
  · omega
  · omega

/-- Witness for C3 at a concrete context and equal inputs. -/
theorem generateCounter_injective_witness :
    wCtxM.ssrc = wCtxM.ssrc ∧ wCtxM.sessionSalt = wCtxM.sessionSalt ∧
      wCtxM.sessionSalt.length = 14 ∧ wCtxM.rolloverCounter < 2 ^ 32 ∧ (9 : Nat) < 2 ^ 16 ∧
      generateCounter wCtxM 9 = generateCounter wCtxM 9 ∧
      (wCtxM.rolloverCounter = wCtxM.rolloverCounter ∧ (9 : Nat) = 9) :=
  ⟨rfl, rfl, by decide, by decide, by decide, rfl,
    generateCounter_injective wCtxM wCtxM 9 9 rfl rfl (by decide) (by decide) (by decide)
      (by decide) (by decide) rfl⟩

/-- The derivation input block as the spec words it: the master salt
right-aligned in a 16-byte block, with the final 7 bytes of that block
XORed against `{label, 0, 0, 0, 0, 0, 0}`. -/
def specKdfInput (masterSalt : List Nat) (label : Nat) : List Nat :=
  let block := List.replicate (16 - masterSalt.length) 0 ++ masterSalt
  block.take (block.length - 7) ++
    List.zipWith Nat.xor (block.drop (block.length - 7)) [label, 0, 0, 0, 0, 0, 0]

/-- Session key as the spec words it (right-aligned salt block). -/
def specSessionKey (masterKey masterSalt : List Nat) : List Nat :=
  aes128Encrypt masterKey (specKdfInput masterSalt labelEncryption)

/-- Session salt as the spec words it (first 14 bytes, label 0x02). -/
def specSessionSalt (masterKey masterSalt : List Nat) : List Nat :=
  (aes128Encrypt masterKey (specKdfInput masterSalt labelSalt)).take saltLen

def mkC5 : List Nat := [0, 1, 2, 3, 4, 5, 6, 7, 8, 9, 10, 11, 12, 13, 14, 15]
def msC5 : List Nat := [1, 2, 3, 4, 5, 6, 7, 8, 9, 10, 11, 12, 13, 14]

/-- C5 counterexample: the code left-aligns the master salt (it appends
the two zero bytes on the right) and XORs the label sequence into bytes
7-13, not into the final 7 bytes of a right-aligned block; at this
concrete key/salt the two derivations disagree, for both the session
key and the session salt. -/
theorem sessionKDF_right_align_counterexample :
    generateSessionKey mkC5 msC5 ≠ specSessionKey mkC5 msC5 ∧
      generateSessionSalt mkC5 msC5 ≠ specSessionSalt mkC5 msC5 := by
  constructor
  · decide
  · decide

/-- The derivation input block as amended: the master salt left-aligned
with two zero bytes appended on the right, and bytes 7-13 (the final 7
bytes of the 14-byte salt) XORed against `{label, 0, 0, 0, 0, 0, 0}`. -/
def amendedKdfInput (masterSalt : List Nat) (label : Nat) : List Nat :=
  masterSalt.take 7 ++
    List.zipWith Nat.xor (masterSalt.drop 7) [label, 0, 0, 0, 0, 0, 0] ++ [0, 0]

/-- C5 amended: for every 16-byte master key and 14-byte master salt,
the session key is AES of the left-aligned block under label 0x00, in
full; the session salt is the first 14 bytes of the same computation
under label 0x02. -/
theorem sessionKDF_left_align (masterKey masterSalt : List Nat)
    (hlen : masterSalt.length = 14) :
    generateSessionKey masterKey masterSalt =
        aes128Encrypt masterKey (amendedKdfInput masterSalt labelEncryption) ∧
      generateSessionSalt masterKey masterSalt =
        (aes128Encrypt masterKey (amendedKdfInput masterSalt labelSalt)).take 14 := by
  unfold generateSessionKey generateSessionSalt kdfInput amendedKdfInput saltLen
  rw [hlen]
  norm_num

/-- Witness for the amended C5 at a concrete master key/salt. -/
theorem sessionKDF_left_align_witness :
    msC5.length = 14 ∧
      (generateSessionKey mkC5 msC5 =
          aes128Encrypt mkC5 (amendedKdfInput msC5 labelEncryption) ∧
        generateSessionSalt mkC5 msC5 =
          (aes128Encrypt mkC5 (amendedKdfInput msC5 labelSalt)).take 14) :=
  ⟨by decide, sessionKDF_left_align mkC5 msC5 (by decide)⟩

/-!
## C6: the canonical rollover run
-/

/-- The sequence-number run `0, 1, ..., 65535, 0, 1` of the spec's
rollover test. -/
def rolloverRunSeqs : List Nat := List.range 65536 ++ [0, 1]

/-- Processing `0, 1, ..., k-1` from an uninitialized tracker only marks
it initialized and records the last sequence number. -/
theorem foldl_range_mid (c : Context) (hinit : c.rolloverHasProcessed = false) :
    ∀ k, 1 ≤ k → k ≤ 65536 →
      (List.range k).foldl updateRolloverCount c =
        { c with rolloverHasProcessed := true, lastSequenceNumber := k - 1 } := by
  intro k
  induction k with
  | zero => intro h1 _; exact absurd h1 (by decide)
  | succ k ih =>
    intro _ h2
    by_cases hk : k = 0
    · subst hk
      simp [List.range_succ, updateRolloverCount, hinit]
    · rw [List.range_succ, List.foldl_append, ih (by omega) (by omega)]
      simp only [List.foldl_cons, List.foldl_nil, updateRolloverCount, maxROCDisorder,
        maxSequenceNumber]
      split_ifs <;> simp_all <;> omega

/-- C6: from a fresh context (`rolloverCounter = 0`, uninitialized
tracker), every prefix of the run `0..65535, 0, 1` leaves the rollover
counter at 0 up to and including the 65536 initial packets, and at 1
from the second `0` onwards: a single increment, happening at the second
`0`. -/
theorem rolloverRun_single_increment (c : Context)
    (hroc : c.rolloverCounter = 0) (hinit : c.rolloverHasProcessed = false) :
    ∀ n, ((rolloverRunSeqs.take n).foldl updateRolloverCount c).rolloverCounter =
      if n ≤ 65536 then 0 else 1 := by
  intro n
  by_cases hn : n ≤ 65536
  · rw [if_pos hn]
    have htake : rolloverRunSeqs.take n = List.range n := by
      rw [rolloverRunSeqs, List.take_append_eq_append_take, List.take_range, List.length_range,
        Nat.sub_eq_zero_of_le hn, min_eq_left hn, List.take_zero, List.append_nil]
    rw [htake]
    rcases Nat.eq_zero_or_pos n with h0 | hpos
    · subst h0
      simpa using hroc
    · rw [foldl_range_mid c hinit n hpos hn]
      simpa using hroc
  · rw [if_neg hn]
    have hfull : (List.range 65536).foldl updateRolloverCount c =
        { c with rolloverHasProcessed := true, lastSequenceNumber := 65535 } :=
      foldl_range_mid c hinit 65536 (by omega) (by omega)
    by_cases h37 : n = 65537
    · subst h37
      have htake : rolloverRunSeqs.take 65537 = List.range 65536 ++ [0] := by
        rw [rolloverRunSeqs, List.take_append_eq_append_take,
          List.take_of_length_le (by rw [List.length_range]; omega), List.length_range]
        exact congrArg (List.range 65536 ++ ·) (by decide)
      rw [htake, List.foldl_append, hfull]
      simp [updateRolloverCount, maxROCDisorder, hroc]
    · have htake : rolloverRunSeqs.take n = List.range 65536 ++ [0, 1] := by
        rw [rolloverRunSeqs]
        refine List.take_of_length_le ?_
        rw [List.length_append, List.length_range, List.length_cons, List.length_cons,
          List.length_nil]
        omega
      rw [htake, List.foldl_append, hfull]
      simp [updateRolloverCount, maxROCDisorder, maxSequenceNumber, hroc]

/-- A fresh (uninitialized) concrete context. -/
def wFresh : Context := { wCtxM with rolloverHasProcessed := false }

/-- Witness for C6 at the concrete fresh context, sampling the prefix
that ends just after the second `0`. -/
theorem rolloverRun_single_increment_witness :
    wFresh.rolloverCounter = 0 ∧ wFresh.rolloverHasProcessed = false ∧
      ((rolloverRunSeqs.take 65537).foldl updateRolloverCount wFresh).rolloverCounter =
        if 65537 ≤ 65536 then 0 else 1 :=
  ⟨by decide, by decide, rolloverRun_single_increment wFresh (by decide) (by decide) 65537⟩

/-!
## C7: stream binding across a context's lifetime
-/

theorem updateRolloverCount_ssrc (c : Context) (seq : Nat) :
    (updateRolloverCount c seq).ssrc = c.ssrc := by
  simp only [updateRolloverCount]
  split_ifs <;> rfl

/-- Any successful (non-panicking) `DecryptPacket` call on a context
whose identifier is already non-zero leaves that identifier intact. -/
theorem decryptPacket_ssrc_preserved (c : Context) (p : Packet) (r : Bool × Context × Packet)
    (hns : c.ssrc ≠ 0) (h : DecryptPacket c p = some r) : r.2.1.ssrc = c.ssrc := by
  rw [DecryptPacket] at h
  split at h
  · simp only [Option.some.injEq] at h
    rw [← h]
  case isFalse hm =>
    have hcp : c.ssrc = p.ssrc := by
      by_contra hne
      exact hm ⟨hns, hne⟩
    simp only at h
    split at h
    · exact Option.noConfusion h
    · simp only [Option.some.injEq] at h
      rw [← h]
      simp [updateRolloverCount_ssrc, hcp]

/-- A first packet binds its identifier into a context whose identifier
is still the zero sentinel. -/
theorem decryptPacket_binds (c : Context) (p : Packet) (r : Bool × Context × Packet)
    (h0 : c.ssrc = 0) (h : DecryptPacket c p = some r) : r.2.1.ssrc = p.ssrc := by
  rw [DecryptPacket] at h
  split at h
  case isTrue hm => exact absurd h0 hm.1
  case isFalse hm =>
    simp only at h
    split at h
    · exact Option.noConfusion h
    · simp only [Option.some.injEq] at h
      rw [← h]
      simp [updateRolloverCount_ssrc]

/-- A run of packets through a context with a non-zero identifier never
changes that identifier. -/
theorem processPackets_ssrc_preserved (ps : List Packet) : ∀ (c cN : Context), c.ssrc ≠ 0 →
    processPackets c ps = some cN → cN.ssrc = c.ssrc := by
  induction ps with
  | nil =>
    intro c cN _ hp
    simp only [processPackets, Option.some.injEq] at hp
    rw [← hp]
  | cons p ps ih =>
    intro c cN h hp
    rw [processPackets] at hp
    rcases hd : DecryptPacket c p with _ | r
    · rw [hd] at hp
      exact Option.noConfusion hp
    · obtain ⟨b, c', p'⟩ := r
      rw [hd] at hp
      have hssrc : c'.ssrc = c.ssrc := decryptPacket_ssrc_preserved c p (b, c', p') h hd
      have := ih c' cN (by rw [hssrc]; exact h) hp
      rw [this, hssrc]

/-- C7 (amended: the first packet must carry a non-zero identifier,
since zero is the unbound sentinel): once a context binds a non-zero
identifier from its first packet, every later state of any run of calls
still carries that identifier, and a packet with a different identifier
is rejected (`false`) without mutation. -/
theorem streamBinding_immutable (c0 : Context) (p : Packet) (ps : List Packet) (cN : Context)
    (h0 : c0.ssrc = 0) (hp : p.ssrc ≠ 0)
    (hrun : processPackets c0 (p :: ps) = some cN) :
    cN.ssrc = p.ssrc ∧ ∀ q, q.ssrc ≠ p.ssrc → DecryptPacket cN q = some (false, cN, q) := by
  rw [processPackets] at hrun
  rcases hd : DecryptPacket c0 p with _ | r
  · rw [hd] at hrun
    exact Option.noConfusion hrun
  · obtain ⟨b, c1, p1⟩ := r
    rw [hd] at hrun
    have hbind : c1.ssrc = p.ssrc := decryptPacket_binds c0 p (b, c1, p1) h0 hd
    have hN : cN.ssrc = p.ssrc := by
      rw [processPackets_ssrc_preserved ps c1 cN (by rw [hbind]; exact hp) hrun, hbind]
    refine ⟨hN, fun q hq => ?_⟩
    rw [DecryptPacket, if_pos ⟨by rw [hN]; exact hp, by rw [hN]; exact fun h => hq h.symm⟩]

/-- A fresh concrete context with the zero (unbound) identifier. -/
def cexCtx0 : Context := { wCtxM with ssrc := 0, rolloverHasProcessed := false }

/-- A first packet whose stream identifier is the zero sentinel. -/
def pktZ1 : Packet :=
  { ssrc := 0, sequenceNumber := 5, payload := List.replicate 10 0,
    raw := List.replicate 12 0, payloadOffset := 2 }

/-- A second packet with a different, non-zero stream identifier. -/
def pktZ2 : Packet :=
  { ssrc := 7, sequenceNumber := 6, payload := List.replicate 10 0,
    raw := List.replicate 12 0, payloadOffset := 2 }

/-- The context after `cexCtx0` has processed `pktZ1`. -/
def cexCtx1 : Context := ((DecryptPacket cexCtx0 pktZ1).map (fun r => r.2.1)).getD cexCtx0

/-- C7 counterexample: a context whose first packet carries identifier 0
does not actually bind; the next packet carries the different identifier
7, yet is accepted (`true`, not `false`) and rebinds the context, so the
identifier does change after the first processed packet. -/
theorem streamBinding_zero_ssrc_counterexample :
    cexCtx0.ssrc = 0 ∧ pktZ1.ssrc = 0 ∧ pktZ2.ssrc ≠ pktZ1.ssrc ∧
      (DecryptPacket cexCtx0 pktZ1).map (fun r => (r.1, r.2.1.ssrc)) = some (true, 0) ∧
      (DecryptPacket cexCtx1 pktZ2).map (fun r => (r.1, r.2.1.ssrc)) = some (true, 7) := by
  refine ⟨rfl, rfl, by decide, by decide, by decide⟩

/-- A first packet with a non-zero identifier, for the C7 witness. -/
def pktW : Packet :=
  { ssrc := 1000, sequenceNumber := 5, payload := List.replicate 10 0,
    raw := List.replicate 12 0, payloadOffset := 2 }

/-- The context after `cexCtx0` has processed `pktW`. -/
def cexCtxW : Context := (processPackets cexCtx0 [pktW]).getD cexCtx0

/-- Witness for the amended C7 on a concrete one-packet run. -/
theorem streamBinding_immutable_witness :
    cexCtx0.ssrc = 0 ∧ pktW.ssrc ≠ 0 ∧ processPackets cexCtx0 [pktW] = some cexCtxW ∧
      (cexCtxW.ssrc = pktW.ssrc ∧
        ∀ q, q.ssrc ≠ pktW.ssrc → DecryptPacket cexCtxW q = some (false, cexCtxW, q)) :=
  ⟨rfl, by decide, by decide,
    streamBinding_immutable cexCtx0 pktW [] cexCtxW rfl (by decide) (by decide)⟩

/-!
## C8: encrypt/decrypt round trip
-/

/-- A steady-state tracker step that re-observes its own last sequence
number leaves the context unchanged. -/
theorem updateRolloverCount_self (c : Context) (hinit : c.rolloverHasProcessed = true) :
    updateRolloverCount c c.lastSequenceNumber = c := by
  obtain ⟨ssrc, roc, init, last, mk, ms, sk, ssalt⟩ := c
  simp only at hinit
  subst hinit
  by_cases h0 : last = 0
  · subst h0
    simp [updateRolloverCount]
  · have hf : ¬(last < maxROCDisorder ∧ last > maxSequenceNumber - maxROCDisorder) := by
      unfold maxROCDisorder maxSequenceNumber
      omega
    simp [updateRolloverCount, h0, hf]

/-- Counter-mode encryption of a payload for transport, as the spec's
round-trip property describes it: append a 10-byte tag placeholder, then
XOR with the AES-CTR keystream for the counter block derived from the
context's stream identifier, rollover counter and the packet's sequence
number. -/
def encryptForTransport (c : Context) (seq : Nat) (plain tag : List Nat) : List Nat :=
  xorBytes (plain ++ tag)
    (ctrKeystream c.sessionKey (generateCounter c seq) (plain ++ tag).length)

/-- C8: decrypting a packet that carries the counter-mode encryption of
`plain ++ tag` (10-byte tag placeholder), with the context in the
matching sequence/rollover state, succeeds and returns exactly `plain`
as the payload. -/
theorem decryptPacket_roundTrip (c : Context) (plain tag raw : List Nat) (off : Nat)
    (htag : tag.length = 10) (hinit : c.rolloverHasProcessed = true) :
    ∃ c' p', DecryptPacket c
        { ssrc := c.ssrc, sequenceNumber := c.lastSequenceNumber,
          payload := encryptForTransport c c.lastSequenceNumber plain tag,
          raw := raw, payloadOffset := off } =
        some (true, c', p') ∧ p'.payload = plain := by
  have hksl : (ctrKeystream c.sessionKey (generateCounter c c.lastSequenceNumber)
      (plain ++ tag).length).length = (plain ++ tag).length :=
    length_ctrKeystream _ _ _
  have hpl : (encryptForTransport c c.lastSequenceNumber plain tag).length =
      (plain ++ tag).length := by
    rw [encryptForTransport, xorBytes, List.length_zipWith, hksl, min_self]
  have hlen10 : (plain ++ tag).length = plain.length + 10 := by
    rw [List.length_append, htag]
  rw [DecryptPacket, if_neg (by simp)]
  dsimp only
  rw [show ({ c with ssrc := c.ssrc } : Context) = c from rfl,
    updateRolloverCount_self c hinit, hpl]
  rw [show encryptForTransport c c.lastSequenceNumber plain tag =
      xorBytes (plain ++ tag) (ctrKeystream c.sessionKey
        (generateCounter c c.lastSequenceNumber) (plain ++ tag).length) from rfl]
  rw [xorBytes_xorBytes_cancel (plain ++ tag) _ hksl]
  rw [goSliceTo]
  rw [if_pos (by omega)]
  have htoNat : (((plain ++ tag).length : Int) - 10).toNat = plain.length := by
    rw [hlen10]
    omega
  rw [htoNat]
  rw [show (plain ++ tag).take plain.length = plain from List.take_left plain tag]
  exact ⟨c, _, rfl, rfl⟩

/-- A concrete steady-state context for the C8 witness. -/
def wCtxR : Context := { wCtxM with ssrc := 1000, lastSequenceNumber := 5 }

/-- Witness for C8: round trip of the empty plaintext with a zero tag
placeholder at the concrete steady-state context. -/
theorem decryptPacket_roundTrip_witness :
    (List.replicate 10 0).length = 10 ∧ wCtxR.rolloverHasProcessed = true ∧
      ∃ c' p', DecryptPacket wCtxR
          { ssrc := wCtxR.ssrc, sequenceNumber := wCtxR.lastSequenceNumber,
            payload := encryptForTransport wCtxR wCtxR.lastSequenceNumber []
              (List.replicate 10 0),
            raw := [], payloadOffset := 0 } =
          some (true, c', p') ∧ p'.payload = [] :=
  ⟨by decide, by decide,
    decryptPacket_roundTrip wCtxR [] (List.replicate 10 0) [] 0 (by decide) (by decide)⟩

/-- Witness for C2 at a concrete state and sequence number. -/
theorem updateRolloverCount_matches_table_witness :
    (0 : Nat) < 2 ^ 16 ∧
      ((updateRolloverCount wCtxM 0).rolloverCounter =
          (rocSpecStep wCtxM.rolloverCounter wCtxM.rolloverHasProcessed
            wCtxM.lastSequenceNumber 0).1 ∧
        (updateRolloverCount wCtxM 0).rolloverHasProcessed =
          (rocSpecStep wCtxM.rolloverCounter wCtxM.rolloverHasProcessed
            wCtxM.lastSequenceNumber 0).2.1 ∧
        (updateRolloverCount wCtxM 0).lastSequenceNumber = 0) :=
  ⟨by decide, updateRolloverCount_matches_table wCtxM 0 (by decide)⟩

end Srtp
